import Mathlib

/-!
Verification development for the cmk-assistant repository.

Part A embeds the mobile app's AsyncStorage-backed chat-session services
(src/mobile-app/src/services/chatSessionsStorage.ts and migrationService.ts).
AsyncStorage is modelled as a structure with one field per key the services
touch, plus a field for all other keys; JSON documents stored under a key are
modelled by the inductive StoredDoc, whose non-wellformed case stands for any
string that JSON.parse rejects or whose shape makes the subsequent field
accesses throw.

Part B embeds the backend cost-telemetry subsystem. Its implementation
(core/cost_tracker.py, core/middleware.py, core/llm_wrapper.py) is not among
the available source files — only its documentation is — so the definitions in
Part B are modelled from the spec, as flagged on each definition.
-/

/- ===================== Part A: mobile storage services ===================== -/

/-- A JavaScript Date object, reduced to its epoch-milliseconds content. -/
structure JSDate where
  ms : Int
deriving DecidableEq, Repr

/-- A chat message as it sits in the JSON document stored under a key
(scalar timestamp, not yet revived to a Date). -/
structure StoredMsg where
  id : String
  text : String
  createdAt : Int
  userId : Nat
deriving DecidableEq, Repr

/-- A chat message after loading: createdAt revived as a Date object. -/
structure IMessage where
  id : String
  text : String
  createdAt : JSDate
  userId : Nat
deriving DecidableEq, Repr

/-- A chat session as it sits in the stored JSON document. -/
structure StoredSession where
  id : String
  title : String
  createdAt : Int
  updatedAt : Int
  messages : List StoredMsg
deriving DecidableEq, Repr

/-- A chat session after loading: createdAt/updatedAt and each message's
createdAt revived as Date objects (loadChatSessions, lines 37-45). -/
structure ChatSession where
  id : String
  title : String
  createdAt : JSDate
  updatedAt : JSDate
  messages : List IMessage
deriving DecidableEq, Repr

def reviveMsg (m : StoredMsg) : IMessage :=
  { id := m.id, text := m.text, createdAt := ⟨m.createdAt⟩, userId := m.userId }

def storeMsg (m : IMessage) : StoredMsg :=
  { id := m.id, text := m.text, createdAt := m.createdAt.ms, userId := m.userId }

def reviveSession (s : StoredSession) : ChatSession :=
  { id := s.id, title := s.title, createdAt := ⟨s.createdAt⟩,
    updatedAt := ⟨s.updatedAt⟩, messages := s.messages.map reviveMsg }

def storeSession (s : ChatSession) : StoredSession :=
  { id := s.id, title := s.title, createdAt := s.createdAt.ms,
    updatedAt := s.updatedAt.ms, messages := s.messages.map storeMsg }

/-- The JSON document stored as the string value of an AsyncStorage key:
either a well-formed array of sessions, a well-formed array of messages
(the old single-chat history), or anything else — a string on which
JSON.parse throws or whose shape makes the revival code throw. -/
inductive StoredDoc
| illFormed (raw : String)
| sessionsDoc (l : List StoredSession)
| messagesDoc (l : List StoredMsg)
deriving DecidableEq, Repr

/-- The AsyncStorage state, one field per key the services use
(chat_sessions, active_session_id, migration_completed, chat_history),
plus the untouched remainder of the store. -/
structure Storage where
  chatSessionsKey : Option StoredDoc
  activeSessionIdKey : Option String
  migrationCompletedKey : Option String
  chatHistoryKey : Option StoredDoc
  otherKeys : List (String × String)
deriving DecidableEq, Repr

/-- Outcome of the AsyncStorage.getItem + JSON.parse + revive pipeline in
loadChatSessions (lines 32-52): the read itself may reject (modelled by the
error case of Except), the key may be absent, the document may be ill-formed;
every failure path is caught and yields the empty list. -/
def loadResult (read : Except String (Option StoredDoc)) : List ChatSession :=
  match read with
  | .error _ => []
  | .ok none => []
  | .ok (some (StoredDoc.sessionsDoc l)) => l.map reviveSession
  | .ok (some _) => []

/-- loadChatSessions on a storage state whose read succeeds. -/
def loadChatSessions (st : Storage) : List ChatSession :=
  loadResult (.ok st.chatSessionsKey)

/-- saveChatSessions (lines 23-30): JSON.stringify the list and overwrite the
chat_sessions key. -/
def saveChatSessionsSt (st : Storage) (sessions : List ChatSession) : Storage :=
  { st with chatSessionsKey := some (StoredDoc.sessionsDoc (sessions.map storeSession)) }

/-- getActiveSessionId (lines 156-163). -/
def getActiveSessionIdSt (st : Storage) : Option String :=
  st.activeSessionIdKey

/-- deleteChatSession (lines 122-136): load, keep the sessions whose id
differs from sessionId, save, then clear the active_session_id key when it
named the deleted session. -/
def deleteChatSession (st : Storage) (sessionId : String) : Storage :=
  let sessions := loadChatSessions st
  let filteredSessions := sessions.filter (fun s => s.id != sessionId)
  let st1 := saveChatSessionsSt st filteredSessions
  if getActiveSessionIdSt st1 == some sessionId then
    { st1 with activeSessionIdKey := none }
  else st1

/-- JavaScript truthiness of a string-or-null value: null and the empty
string are falsy, every other string is truthy. -/
def isTruthy (o : Option String) : Bool :=
  match o with
  | none => false
  | some s => s != ""

/-- generateTitleFromMessages (migrationService.ts lines 57-64): title from
the last element of the user-message filter, truncated past 30 characters. -/
def generateTitleFromMessages (messages : List IMessage) : String :=
  let userMessages := messages.filter (fun m => m.userId == 1)
  match userMessages.getLast? with
  | some m => if m.text.length > 30 then m.text.take 30 ++ "..." else m.text
  | none => "Geçmiş Sohbet"

/-- runMigration (migrationService.ts lines 9-55), with the clock passed in
for Date.now(). An already-truthy migration_completed value short-circuits;
an ill-formed old history makes JSON.parse throw, which the surrounding
try/catch turns into a plain return before anything was written. -/
def runMigration (st : Storage) (now : Int) : Storage :=
  if isTruthy st.migrationCompletedKey then st
  else
    match st.chatHistoryKey with
    | none => { st with migrationCompletedKey := some "true" }
    | some (StoredDoc.messagesDoc oldStored) =>
        let oldMessages := oldStored.map reviveMsg
        let st1 :=
          if oldMessages.length > 0 then
            let sess : ChatSession :=
              { id := toString now ++ "_migrated",
                title := generateTitleFromMessages oldMessages,
                createdAt := ⟨now⟩, updatedAt := ⟨now⟩, messages := oldMessages }
            { saveChatSessionsSt st [sess] with activeSessionIdKey := some sess.id }
          else st
        { st1 with chatHistoryKey := none, migrationCompletedKey := some "true" }
    | some _ => st

/- ===================== Part B: cost-telemetry subsystem ===================== -/

/-- Modelled from the spec: the service enum of APICallRecord (spec section 3),
provider A for token-priced LLM/embedding calls, provider B for
duration-priced audio transcription. The implementation file
core/cost_tracker.py is not among the available sources. -/
inductive Service
| providerA
| providerB
deriving DecidableEq, Repr

/-- Modelled from the spec: one priced provider call (spec section 3,
APICallRecord); core/cost_tracker.py is not among the available sources. -/
structure APICallRecord where
  service : Service
  endpoint : String
  model : String
  inputTokens : Nat
  outputTokens : Nat
  durationMs : Nat
  cost : Rat
  success : Bool
  errorMessage : Option String
  timestamp : Nat
deriving DecidableEq, Repr

/-- Modelled from the spec: a RequestSummary while still open — call list
growing, no end time or totals yet (spec section 3). -/
structure OpenSummary where
  requestId : Nat
  endpoint : String
  userIp : Option String
  startTime : Nat
  apiCalls : List APICallRecord
deriving DecidableEq, Repr

/-- Modelled from the spec: a sealed RequestSummary (spec section 3), with the
derived totals stored alongside the call list. -/
structure RequestSummary where
  requestId : Nat
  endpoint : String
  userIp : Option String
  startTime : Nat
  endTime : Nat
  apiCalls : List APICallRecord
  totalCost : Rat
  totalInputTokens : Nat
  totalOutputTokens : Nat
  success : Bool
  errorMessage : Option String
deriving DecidableEq, Repr

/-- Modelled from the spec: the static token-pricing table of the Pricing
Calculator (spec section 4.2), entries taken from the repository's cost
tracking documentation (rates in dollars per 1K input / per 1K output
tokens). -/
def TOKEN_PRICING : List (String × (Rat × Rat)) :=
  [("gpt-4o", ((1 : Rat)/400, (1 : Rat)/100)),
   ("gpt-4o-mini", ((3 : Rat)/20000, (3 : Rat)/5000)),
   ("text-embedding-ada-002", ((1 : Rat)/10000, 0)),
   ("anthropic/claude-3.5-sonnet", ((3 : Rat)/1000, (3 : Rat)/200)),
   ("anthropic/claude-3-haiku", ((1 : Rat)/4000, (1 : Rat)/800))]

/-- Modelled from the spec: the configured default per-1K rate pair used when
a model is missing from the table (spec section 4.2; representative value). -/
def DEFAULT_TOKEN_PAIR : Rat × Rat := ((1 : Rat)/1000, (1 : Rat)/500)

/-- Modelled from the spec: per-minute transcription rate (documentation:
whisper-1 at $0.006 per minute). -/
def TRANSCRIPTION_RATE_PER_MINUTE : Rat := (3 : Rat)/500

/-- Modelled from the spec: duration-priced calls are billed by the minute,
rounded up (spec section 4.2, ceil_to_minute). -/
def ceilToMinute (durationMs : Nat) : Nat :=
  (durationMs + 59999) / 60000

/-- Lookup of a model name in a pricing table. -/
def lookupRate (model : String) : List (String × (Rat × Rat)) → Option (Rat × Rat)
| [] => none
| (k, r) :: rest => if model == k then some r else lookupRate model rest

/-- Modelled from the spec: rate pair for a model, falling back to the
configured default when the model is unknown (spec section 4.2). -/
def rateFor (model : String) : Rat × Rat :=
  (lookupRate model TOKEN_PRICING).getD DEFAULT_TOKEN_PAIR

/-- Modelled from the spec: the Pricing Calculator (spec section 4.2).
Token-priced services: inputTokens/1000 * rate_in + outputTokens/1000 *
rate_out; duration-priced services: ceil_to_minute(durationMs) * rate per
minute. Total on every input: an unknown model uses the default rate and
never fails the call. -/
def price (service : Service) (model : String) (inputTokens outputTokens : Nat)
    (durationMs : Nat) : Rat :=
  match service with
  | Service.providerA =>
      let r := rateFor model
      (inputTokens : Rat) / 1000 * r.1 + (outputTokens : Rat) / 1000 * r.2
  | Service.providerB =>
      (ceilToMinute durationMs : Rat) * TRANSCRIPTION_RATE_PER_MINUTE

/-- Modelled from the spec: the bounded history store (spec section 4.4),
entries kept oldest-first in push order. -/
structure HistoryStore where
  entries : List RequestSummary
deriving DecidableEq, Repr

/-- Modelled from the spec: the store's fixed capacity (spec section 3:
at most N=1000 sealed entries). -/
def MAX_HISTORY : Nat := 1000

/-- Keep only the most recent MAX_HISTORY entries of an oldest-first list,
evicting from the front. -/
def trimEntries (l : List RequestSummary) : List RequestSummary :=
  if l.length > MAX_HISTORY then l.drop (l.length - MAX_HISTORY) else l

/-- Modelled from the spec: push appends and evicts the oldest entries once
the capacity is exceeded (spec section 4.4). -/
def HistoryStore.push (h : HistoryStore) (s : RequestSummary) : HistoryStore :=
  ⟨trimEntries (h.entries ++ [s])⟩

/-- A sequence of pushes, first list element pushed first. -/
def HistoryStore.pushAll (h : HistoryStore) (l : List RequestSummary) : HistoryStore :=
  l.foldl HistoryStore.push h

def emptyStore : HistoryStore := ⟨[]⟩

/-- Modelled from the spec: get(request_id) -> summary | not-found
(spec section 4.4). -/
def HistoryStore.get (h : HistoryStore) (rid : Nat) : Option RequestSummary :=
  h.entries.find? (fun s => s.requestId == rid)

/-- Modelled from the spec: the lightweight per-request preview served by the
recent-requests query (spec sections 4.5 and 6). -/
structure RequestPreview where
  requestId : Nat
  endpoint : String
  startTime : Nat
  endTime : Nat
  totalCost : Rat
  totalInputTokens : Nat
  totalOutputTokens : Nat
  success : Bool
  apiCallsCount : Nat
deriving DecidableEq, Repr

def toPreview (s : RequestSummary) : RequestPreview :=
  { requestId := s.requestId, endpoint := s.endpoint, startTime := s.startTime,
    endTime := s.endTime, totalCost := s.totalCost,
    totalInputTokens := s.totalInputTokens,
    totalOutputTokens := s.totalOutputTokens, success := s.success,
    apiCallsCount := s.apiCalls.length }

/-- Modelled from the spec: list_recent(limit) -> most-recent-first previews
(spec section 4.4 and 4.5). -/
def HistoryStore.listRecent (h : HistoryStore) (limit : Nat) : List RequestPreview :=
  (h.entries.reverse.take limit).map toPreview

/-- Modelled from the spec: the Request Context Registry state (spec
section 4.1), its ambient per-request association rendered as a map from
request id to the open summary, next to the process-wide history store. -/
structure TrackerState where
  contexts : List (Nat × OpenSummary)
  history : HistoryStore
  nextId : Nat
deriving DecidableEq, Repr

def emptyTracker : TrackerState := ⟨[], emptyStore, 0⟩

/-- Modelled from the spec: a call-completion event as emitted by the
provider-call wrappers (spec section 1). -/
structure CompletionEvent where
  service : Service
  endpoint : String
  model : String
  inputTokens : Nat
  outputTokens : Nat
  durationMs : Nat
  success : Bool
  errorMessage : Option String
  timestamp : Nat
deriving DecidableEq, Repr

/-- Price a completion event into an APICallRecord (spec section 4.1:
record_call appends a priced record). -/
def priceEvent (e : CompletionEvent) : APICallRecord :=
  { service := e.service, endpoint := e.endpoint, model := e.model,
    inputTokens := e.inputTokens, outputTokens := e.outputTokens,
    durationMs := e.durationMs,
    cost := price e.service e.model e.inputTokens e.outputTokens e.durationMs,
    success := e.success, errorMessage := e.errorMessage,
    timestamp := e.timestamp }

def lookupContext : List (Nat × OpenSummary) → Nat → Option OpenSummary
| [], _ => none
| (k, o) :: rest, rid => if k == rid then some o else lookupContext rest rid

def updateContext : List (Nat × OpenSummary) → Nat → OpenSummary → List (Nat × OpenSummary)
| [], _, _ => []
| (k, o) :: rest, rid, o2 =>
    if k == rid then (k, o2) :: rest else (k, o) :: updateContext rest rid o2

def removeContext (l : List (Nat × OpenSummary)) (rid : Nat) : List (Nat × OpenSummary) :=
  l.filter (fun p => p.1 != rid)

/-- Modelled from the spec: begin_request (spec section 4.1) — allocate a new
open summary, make it the current context for this request, return its id. -/
def beginRequest (st : TrackerState) (endpoint : String) (userIp : Option String)
    (now : Nat) : Nat × TrackerState :=
  let rid := st.nextId
  let o : OpenSummary :=
    { requestId := rid, endpoint := endpoint, userIp := userIp,
      startTime := now, apiCalls := [] }
  (rid, { st with contexts := (rid, o) :: st.contexts, nextId := rid + 1 })

/-- Modelled from the spec: record_call (spec section 4.1) — append a priced
record to the current request's open summary; with no current context the
event is dropped and logged and nothing changes. -/
def recordCall (st : TrackerState) (rid : Nat) (e : CompletionEvent) : TrackerState :=
  match lookupContext st.contexts rid with
  | none => st
  | some o =>
      let o2 := { o with apiCalls := o.apiCalls ++ [priceEvent e] }
      { st with contexts := updateContext st.contexts rid o2 }

/-- Modelled from the spec: sealing (spec sections 3 and 4.1) — freeze the
call list, stamp the end time, recompute the totals from the call list. -/
def sealSummary (o : OpenSummary) (endTime : Nat) (success : Bool)
    (errorMessage : Option String) : RequestSummary :=
  { requestId := o.requestId, endpoint := o.endpoint, userIp := o.userIp,
    startTime := o.startTime, endTime := endTime, apiCalls := o.apiCalls,
    totalCost := (o.apiCalls.map (fun c => c.cost)).sum,
    totalInputTokens := (o.apiCalls.map (fun c => c.inputTokens)).sum,
    totalOutputTokens := (o.apiCalls.map (fun c => c.outputTokens)).sum,
    success := success, errorMessage := errorMessage }

/-- Modelled from the spec: end_request (spec section 4.1) — seal the current
summary, remove it from the registry, hand it to the history store, return
the sealed copy. -/
def endRequest (st : TrackerState) (rid : Nat) (now : Nat) (success : Bool)
    (errorMessage : Option String) : Option RequestSummary × TrackerState :=
  match lookupContext st.contexts rid with
  | none => (none, st)
  | some o =>
      let s := sealSummary o now success errorMessage
      (some s,
       { st with contexts := removeContext st.contexts rid,
                 history := st.history.push s })

/-- Modelled from the spec: the taxonomy of tracking-internal errors (spec
section 7): pricing lookup failure, allocation failure, store write
failure. -/
inductive TrackingFailure
| pricingFailure
| allocationFailure
| storeWriteFailure
deriving DecidableEq, Repr

/-- Modelled from the spec: the tracking step of one provider call, with a
tracking-internal error injected as an optional failure (spec section 7). -/
def recordStep (fail : Option TrackingFailure) (st : TrackerState) (rid : Nat)
    (e : CompletionEvent) : Except TrackingFailure TrackerState :=
  match fail with
  | some f => Except.error f
  | none => Except.ok (recordCall st rid e)

/-- Modelled from the spec: the Call Recorder boundary (spec sections 4.3 and
7) — tracking runs strictly around the provider call; a tracking failure is
caught at the boundary, logged and discarded, and the provider call's own
result or error is returned to its caller unchanged. -/
def trackedCall (fail : Option TrackingFailure) (st : TrackerState) (rid : Nat)
    (e : CompletionEvent) (providerResult : Except String String) :
    Except String String × TrackerState :=
  match recordStep fail st rid e with
  | Except.ok st2 => (providerResult, st2)
  | Except.error _ => (providerResult, st)

/-- The totals of a sealed summary agree with the sums over its call list. -/
def totalsConsistent (s : RequestSummary) : Prop :=
  s.totalCost = (s.apiCalls.map (fun c => c.cost)).sum ∧
  s.totalInputTokens = (s.apiCalls.map (fun c => c.inputTokens)).sum ∧
  s.totalOutputTokens = (s.apiCalls.map (fun c => c.outputTokens)).sum

/- ===================== Theorems: Part A ===================== -/

lemma storeMsg_reviveMsg (m : StoredMsg) : storeMsg (reviveMsg m) = m := rfl

lemma map_storeMsg_reviveMsg (l : List StoredMsg) :
    (l.map reviveMsg).map storeMsg = l := by
  have hcomp : storeMsg ∘ reviveMsg = id := funext fun m => storeMsg_reviveMsg m
  rw [List.map_map, hcomp, List.map_id]

lemma storeSession_reviveSession (s : StoredSession) :
    storeSession (reviveSession s) = s := by
  cases s with
  | mk i t c u msgs =>
      simp [storeSession, reviveSession, List.map_map]
      have hcomp : storeMsg ∘ reviveMsg = id := funext fun m => storeMsg_reviveMsg m
      rw [hcomp, List.map_id]

lemma filter_store_revive (l : List StoredSession) (sid : String) :
    ((l.map reviveSession).filter (fun s => s.id != sid)).map storeSession
      = l.filter (fun s => s.id != sid) := by
  induction l with
  | nil => rfl
  | cons a t ih =>
      have hid : (reviveSession a).id = a.id := rfl
      cases h : (a.id != sid) with
      | true => simp [List.filter_cons, hid, h, storeSession_reviveSession, ih]
      | false => simp [List.filter_cons, hid, h, ih]

/-- C8: for every state of AsyncStorage, loadChatSessions never throws: it
returns the stored session list with dates revived when the chat_sessions key
holds a well-formed document, and the empty list when the key is absent or
any read or parse error occurs. -/
theorem loadChatSessions_never_throws :
    (∀ st l, st.chatSessionsKey = some (StoredDoc.sessionsDoc l) →
      loadChatSessions st = l.map reviveSession) ∧
    (∀ st, st.chatSessionsKey = none → loadChatSessions st = []) ∧
    (∀ st raw, st.chatSessionsKey = some (StoredDoc.illFormed raw) →
      loadChatSessions st = []) ∧
    (∀ st ml, st.chatSessionsKey = some (StoredDoc.messagesDoc ml) →
      loadChatSessions st = []) ∧
    (∀ e, loadResult (Except.error e) = []) := by
  refine ⟨?_, ?_, ?_, ?_, ?_⟩
  · intro st l h; simp [loadChatSessions, loadResult, h]
  · intro st h; simp [loadChatSessions, loadResult, h]
  · intro st raw h; simp [loadChatSessions, loadResult, h]
  · intro st ml h; simp [loadChatSessions, loadResult, h]
  · intro e; rfl

def msgA : StoredMsg := ⟨"m1", "hello", 10, 1⟩

def sessA : StoredSession := ⟨"s1", "first", 1, 2, [msgA]⟩

def sessB : StoredSession := ⟨"s2", "second", 3, 4, []⟩

def storageA : Storage :=
  ⟨some (StoredDoc.sessionsDoc [sessA, sessB]), some "s1", none, none, [("k", "v")]⟩

/-- Witness for C8 at a concrete storage state. -/
theorem loadChatSessions_never_throws_wit :
    loadChatSessions storageA = [sessA, sessB].map reviveSession :=
  loadChatSessions_never_throws.1 storageA [sessA, sessB] rfl

lemma runMigration_done (st : Storage) (now : Int)
    (h : isTruthy st.migrationCompletedKey = true) : runMigration st now = st := by
  simp [runMigration, h]

lemma runMigration_idem (st : Storage) (n1 n2 : Int) :
    runMigration (runMigration st n1) n2 = runMigration st n1 := by
  by_cases h : isTruthy st.migrationCompletedKey = true
  · rw [runMigration_done st n1 h]
    exact runMigration_done st n2 h
  · have h' : isTruthy st.migrationCompletedKey = false := by
      cases hb : isTruthy st.migrationCompletedKey
      · rfl
      · exact absurd hb h
    match hch : st.chatHistoryKey with
    | none =>
        have h1 : runMigration st n1 = { st with migrationCompletedKey := some "true" } := by
          simp [runMigration, h', hch]
        rw [h1]
        exact runMigration_done _ n2 (by simp [isTruthy])
    | some (StoredDoc.messagesDoc l) =>
        have hkey : (runMigration st n1).migrationCompletedKey = some "true" := by
          simp [runMigration, h', hch]
        exact runMigration_done _ n2 (by rw [hkey]; simp [isTruthy])
    | some (StoredDoc.illFormed raw) =>
        have h1 : runMigration st n1 = st := by simp [runMigration, h', hch]
        rw [h1]
        simp [runMigration, h', hch]
    | some (StoredDoc.sessionsDoc l) =>
        have h1 : runMigration st n1 = st := by simp [runMigration, h', hch]
        rw [h1]
        simp [runMigration, h', hch]

/-- C9: runMigration is idempotent — once a completed run has stored "true"
under migration_completed, any later call returns without touching storage,
and running the migration twice equals running it once. -/
theorem runMigration_idempotent :
    (∀ st now, isTruthy st.migrationCompletedKey = true → runMigration st now = st) ∧
    (∀ st n1 n2, runMigration (runMigration st n1) n2 = runMigration st n1) :=
  ⟨runMigration_done, runMigration_idem⟩

/-- Witness for C9 at a concrete storage state that records a completed
migration. -/
theorem runMigration_idempotent_wit :
    runMigration ⟨none, none, some "true", none, []⟩ 5 = ⟨none, none, some "true", none, []⟩ :=
  runMigration_idempotent.1 ⟨none, none, some "true", none, []⟩ 5 (by rfl)

/-- C10: deleteChatSession removes exactly the sessions whose id equals
sessionId, leaves every other stored session and every other storage key
unchanged, and clears the active_session_id key precisely when it named the
deleted session. -/
theorem deleteChatSession_frame :
    ∀ (st : Storage) (sid : String) (l : List StoredSession),
      st.chatSessionsKey = some (StoredDoc.sessionsDoc l) →
      (deleteChatSession st sid).chatSessionsKey
          = some (StoredDoc.sessionsDoc (l.filter (fun s => s.id != sid))) ∧
      (deleteChatSession st sid).activeSessionIdKey
          = (if st.activeSessionIdKey = some sid then none else st.activeSessionIdKey) ∧
      (deleteChatSession st sid).migrationCompletedKey = st.migrationCompletedKey ∧
      (deleteChatSession st sid).chatHistoryKey = st.chatHistoryKey ∧
      (deleteChatSession st sid).otherKeys = st.otherKeys := by
  intro st sid l h
  by_cases hact : st.activeSessionIdKey = some sid
  · simp [deleteChatSession, loadChatSessions, loadResult, h, saveChatSessionsSt,
      getActiveSessionIdSt, filter_store_revive, hact]
  · simp [deleteChatSession, loadChatSessions, loadResult, h, saveChatSessionsSt,
      getActiveSessionIdSt, filter_store_revive, hact]

/-- Witness for C10 at a concrete storage state holding two sessions whose
active session is the deleted one. -/
theorem deleteChatSession_frame_wit :
    (deleteChatSession storageA "s1").chatSessionsKey
        = some (StoredDoc.sessionsDoc ([sessA, sessB].filter (fun s => s.id != "s1"))) ∧
    (deleteChatSession storageA "s1").activeSessionIdKey
        = (if storageA.activeSessionIdKey = some "s1" then none
           else storageA.activeSessionIdKey) ∧
    (deleteChatSession storageA "s1").migrationCompletedKey = storageA.migrationCompletedKey ∧
    (deleteChatSession storageA "s1").chatHistoryKey = storageA.chatHistoryKey ∧
    (deleteChatSession storageA "s1").otherKeys = storageA.otherKeys :=
  deleteChatSession_frame storageA "s1" [sessA, sessB] rfl

/- ===================== Theorems: Part B ===================== -/

/-- C1: every tracking-internal error raised inside the tracking step of a
provider call is caught at the boundary, logged and discarded: the primary
result handed back to the caller is the provider call's own result, identical
to what it would be with tracking absent, and a failed tracking step leaves
the tracker state untouched. -/
theorem trackedCall_isolation :
    (∀ fail st rid e r, (trackedCall fail st rid e r).1 = r) ∧
    (∀ f st rid e r, trackedCall (some f) st rid e r = (r, st)) := by
  constructor
  · intro fail st rid e r
    cases fail <;> rfl
  · intro f st rid e r
    rfl

/-- C6: record_call with no current context (tracking never started, or the
summary already sealed and removed) drops the event and changes nothing: no
open summary and no history entry is modified, and no error is raised. -/
theorem recordCall_no_context :
    ∀ st rid e, lookupContext st.contexts rid = none → recordCall st rid e = st := by
  intro st rid e h
  simp [recordCall, h]

def evA : CompletionEvent :=
  ⟨Service.providerA, "chat/completions", "gpt-4o", 100, 20, 500, true, none, 7⟩

/-- Witness for C6 on the empty tracker. -/
theorem recordCall_no_context_wit : recordCall emptyTracker 3 evA = emptyTracker :=
  recordCall_no_context emptyTracker 3 evA rfl

lemma sealSummary_totals (o : OpenSummary) (et : Nat) (su : Bool) (er : Option String) :
    totalsConsistent (sealSummary o et su er) :=
  ⟨rfl, rfl, rfl⟩

/-- C2: the totals of every sealed RequestSummary equal the sums over its
call list — both for the summary returned by end_request and, inductively,
for every entry of the history store after a push of a consistent summary
into a consistent store. -/
theorem requestSummary_totals :
    (∀ st rid now su er s, (endRequest st rid now su er).1 = some s →
      totalsConsistent s) ∧
    (∀ (h : HistoryStore) (s : RequestSummary),
      (∀ e ∈ h.entries, totalsConsistent e) → totalsConsistent s →
      ∀ e ∈ (h.push s).entries, totalsConsistent e) := by
  constructor
  · intro st rid now su er s hret
    cases hctx : lookupContext st.contexts rid with
    | none => simp [endRequest, hctx] at hret
    | some o =>
        simp [endRequest, hctx] at hret
        rw [← hret]
        exact sealSummary_totals o now su er
  · intro h s hall hs e he
    have hsub : e ∈ h.entries ++ [s] := by
      simp only [HistoryStore.push, trimEntries] at he
      by_cases hlen : (h.entries ++ [s]).length > MAX_HISTORY
      · rw [if_pos hlen] at he
        exact List.drop_subset _ _ he
      · rw [if_neg hlen] at he
        exact he
    rcases List.mem_append.mp hsub with hin | hin
    · exact hall e hin
    · rw [List.mem_singleton.mp hin]
      exact hs

def openA : OpenSummary := ⟨0, "/api/chat", none, 0, [priceEvent evA]⟩

def trackerA : TrackerState := ⟨[(0, openA)], emptyStore, 1⟩

/-- Witness for C2 on a one-call request sealed out of a concrete tracker and
pushed into the empty store. -/
theorem requestSummary_totals_wit :
    totalsConsistent (sealSummary openA 5 true none) ∧
    (∀ e ∈ (emptyStore.push (sealSummary openA 5 true none)).entries, totalsConsistent e) :=
  ⟨requestSummary_totals.1 trackerA 0 5 true none _ rfl,
   requestSummary_totals.2 emptyStore _
     (fun e he => absurd he (List.not_mem_nil e))
     (requestSummary_totals.1 trackerA 0 5 true none _ rfl)⟩

/-- C4: for token-priced calls the cost is inputTokens/1000 times the per-1K
input rate plus outputTokens/1000 times the per-1K output rate; in particular
1000 input tokens and 0 output tokens at a known rate pair cost exactly the
per-1K input rate. -/
theorem price_token_formula :
    ∀ model ri ro (i o d : Nat), lookupRate model TOKEN_PRICING = some (ri, ro) →
      price Service.providerA model i o d
          = (i : Rat)/1000 * ri + (o : Rat)/1000 * ro ∧
      price Service.providerA model 1000 0 d = ri := by
  intro model ri ro i o d h
  constructor
  · simp [price, rateFor, h]
  · simp [price, rateFor, h]

/-- Witness for C4: 1000 input tokens on claude-3.5-sonnet cost exactly its
per-1K input rate of $0.003. -/
theorem price_token_formula_wit :
    price Service.providerA "anthropic/claude-3.5-sonnet" 1000 0 0 = (3 : Rat)/1000 :=
  (price_token_formula "anthropic/claude-3.5-sonnet" ((3 : Rat)/1000) ((3 : Rat)/200)
    1000 0 0 rfl).2

lemma rateFor_nonneg (m : String) : 0 ≤ (rateFor m).1 ∧ 0 ≤ (rateFor m).2 := by
  unfold rateFor
  simp only [TOKEN_PRICING, lookupRate]
  split_ifs <;> constructor <;> norm_num [DEFAULT_TOKEN_PAIR]

lemma price_nonneg : ∀ s m (i o d : Nat), 0 ≤ price s m i o d := by
  intro s m i o d
  cases s with
  | providerA =>
      have h := rateFor_nonneg m
      dsimp [price]
      have h1 : (0 : Rat) ≤ (i : Rat)/1000 := by positivity
      have h2 : (0 : Rat) ≤ (o : Rat)/1000 := by positivity
      exact add_nonneg (mul_nonneg h1 h.1) (mul_nonneg h2 h.2)
  | providerB =>
      dsimp [price]
      have hr : (0 : Rat) ≤ TRANSCRIPTION_RATE_PER_MINUTE := by
        norm_num [TRANSCRIPTION_RATE_PER_MINUTE]
      exact mul_nonneg (by positivity) hr

/-- C5: a model name missing from the pricing table is priced with the
configured default rate for its service instead of raising, and no input to
price makes the priced call fail — every input yields a cost, and it is
non-negative. -/
theorem price_unknown_model_default :
    (∀ m (i o d : Nat), lookupRate m TOKEN_PRICING = none →
      price Service.providerA m i o d
        = (i : Rat)/1000 * DEFAULT_TOKEN_PAIR.1 + (o : Rat)/1000 * DEFAULT_TOKEN_PAIR.2) ∧
    (∀ s m (i o d : Nat), 0 ≤ price s m i o d) := by
  constructor
  · intro m i o d h
    simp [price, rateFor, h]
  · exact price_nonneg

/-- Witness for C5 on a model name outside the pricing table. -/
theorem price_unknown_model_default_wit :
    price Service.providerA "mystery-model" 2000 500 0
      = ((2000 : Nat) : Rat)/1000 * DEFAULT_TOKEN_PAIR.1
        + ((500 : Nat) : Rat)/1000 * DEFAULT_TOKEN_PAIR.2 :=
  price_unknown_model_default.1 "mystery-model" 2000 500 0 rfl

lemma trimEntries_eq (l : List RequestSummary) :
    trimEntries l = l.drop (l.length - MAX_HISTORY) := by
  unfold trimEntries
  by_cases h : l.length > MAX_HISTORY
  · rw [if_pos h]
  · rw [if_neg h]
    rw [Nat.sub_eq_zero_of_le (le_of_not_lt h), List.drop_zero]

lemma trimEntries_length (l : List RequestSummary) :
    (trimEntries l).length = min l.length MAX_HISTORY := by
  rw [trimEntries_eq, List.length_drop]
  omega

lemma push_entries (h : HistoryStore) (s : RequestSummary) :
    (h.push s).entries
      = h.entries.drop ((h.entries.length + 1) - MAX_HISTORY) ++ [s] := by
  show trimEntries (h.entries ++ [s]) = _
  rw [trimEntries_eq]
  have hlen : (h.entries ++ [s]).length = h.entries.length + 1 := by simp
  have hle : (h.entries.length + 1) - MAX_HISTORY ≤ h.entries.length := by
    have hM : 1 ≤ MAX_HISTORY := by norm_num [MAX_HISTORY]
    omega
  rw [hlen, List.drop_append_of_le_length hle]

lemma drop_sub_append {α : Type} (a b : List α) (n : Nat) :
    (a.drop (a.length - n) ++ b).drop ((a.drop (a.length - n) ++ b).length - n)
      = (a ++ b).drop ((a ++ b).length - n) := by
  have h1 : (a.drop (a.length - n)).length = a.length - (a.length - n) :=
    List.length_drop _ _
  rw [List.drop_append_eq_append_drop, List.drop_append_eq_append_drop,
    List.drop_drop, List.length_append, List.length_append, h1]
  congr 1
  · congr 1
    omega
  · congr 1
    omega

lemma pushAll_entries :
    ∀ (L : List RequestSummary) (h : HistoryStore),
      h.entries.length ≤ MAX_HISTORY →
      (h.pushAll L).entries
        = (h.entries ++ L).drop ((h.entries ++ L).length - MAX_HISTORY) := by
  intro L
  induction L with
  | nil =>
      intro h hh
      show h.entries = _
      rw [List.append_nil, Nat.sub_eq_zero_of_le hh, List.drop_zero]
  | cons x t ih =>
      intro h hh
      show (HistoryStore.pushAll (h.push x) t).entries = _
      rw [ih (h.push x) (by rw [show (h.push x).entries = trimEntries (h.entries ++ [x]) from rfl,
            trimEntries_length]; exact min_le_right _ _)]
      have hp : (h.push x).entries
          = (h.entries ++ [x]).drop ((h.entries ++ [x]).length - MAX_HISTORY) := trimEntries_eq _
      rw [hp, drop_sub_append, List.append_assoc]
      rfl

/-- C7: list_recent returns at most the requested number of previews, a fresh
push appears first in any positive-limit query, and after five pushes into
the empty store a limit-1 query returns exactly the preview of the most
recent push. -/
theorem listRecent_spec :
    (∀ h k, (HistoryStore.listRecent h k).length ≤ k) ∧
    (∀ (h : HistoryStore) s k,
      (HistoryStore.listRecent (h.push s) (k + 1)).head? = some (toPreview s)) ∧
    (∀ s1 s2 s3 s4 s5 : RequestSummary,
      HistoryStore.listRecent (emptyStore.pushAll [s1, s2, s3, s4, s5]) 1
        = [toPreview s5]) := by
  refine ⟨?_, ?_, ?_⟩
  · intro h k
    simp [HistoryStore.listRecent]
  · intro h s k
    rw [HistoryStore.listRecent, push_entries]
    simp
  · intro s1 s2 s3 s4 s5
    have hent : (emptyStore.pushAll [s1, s2, s3, s4, s5]).entries
        = [s1, s2, s3, s4, s5] := by
      rw [pushAll_entries [s1, s2, s3, s4, s5] emptyStore
        (by norm_num [emptyStore, MAX_HISTORY])]
      show List.drop (5 - MAX_HISTORY) _ = _
      norm_num [MAX_HISTORY, emptyStore]
    rw [HistoryStore.listRecent, hent]
    rfl

/-- C3: after pushing more than 1000 summaries into the empty store, the
store holds exactly the 1000 most recent in push order (oldest evicted
first), and get on the id of any evicted summary returns not-found, provided
request ids are pairwise distinct. -/
theorem history_fifo :
    ∀ L : List RequestSummary, L.length > MAX_HISTORY →
      (emptyStore.pushAll L).entries = L.drop (L.length - MAX_HISTORY) ∧
      ((L.map (fun s => s.requestId)).Nodup →
        ∀ s ∈ L.take (L.length - MAX_HISTORY),
          (emptyStore.pushAll L).get s.requestId = none) := by
  intro L hL
  have hent : (emptyStore.pushAll L).entries = L.drop (L.length - MAX_HISTORY) := by
    rw [pushAll_entries L emptyStore (by norm_num [emptyStore, MAX_HISTORY])]
    rfl
  refine ⟨hent, ?_⟩
  intro hnd s hs
  show (emptyStore.pushAll L).entries.find? (fun e => e.requestId == s.requestId) = none
  rw [hent]
  apply List.find?_eq_none.mpr
  intro x hx
  have hsplit : L.map (fun s => s.requestId)
      = (L.take (L.length - MAX_HISTORY)).map (fun s => s.requestId)
        ++ (L.drop (L.length - MAX_HISTORY)).map (fun s => s.requestId) := by
    rw [← List.map_append, List.take_append_drop]
  rw [hsplit] at hnd
  have hdisj := (List.nodup_append.mp hnd).2.2
  have h1 : s.requestId ∈ (L.take (L.length - MAX_HISTORY)).map (fun s => s.requestId) :=
    List.mem_map_of_mem _ hs
  have h2 : s.requestId ∉ (L.drop (L.length - MAX_HISTORY)).map (fun s => s.requestId) :=
    hdisj h1
  intro hb
  have hxq : x.requestId = s.requestId := by simpa using hb
  have hmem : x.requestId ∈ (L.drop (L.length - MAX_HISTORY)).map (fun s => s.requestId) :=
    List.mem_map_of_mem _ hx
  rw [hxq] at hmem
  exact h2 hmem

def mkSummary (i : Nat) : RequestSummary :=
  ⟨i, "/api/chat", none, 0, 0, [], 0, 0, 0, true, none⟩

def bigList : List RequestSummary := (List.range 1001).map mkSummary

set_option maxRecDepth 8000 in
/-- Witness for C3: after 1001 pushes of distinct-id summaries into the empty
store, the first pushed summary's id is no longer found. -/
theorem history_fifo_wit : (emptyStore.pushAll bigList).get 0 = none := by
  have hlen : bigList.length = 1001 := by simp [bigList]
  have h := history_fifo bigList (by rw [hlen]; decide)
  have hnd : (bigList.map (fun s => s.requestId)).Nodup := by
    have hmap : bigList.map (fun s => s.requestId) = List.range 1001 := by
      rw [bigList, List.map_map]
      exact List.map_id' (List.range 1001)
    rw [hmap]
    exact List.nodup_range 1001
  have h2 : bigList.length - MAX_HISTORY = 1 := by rw [hlen]; rfl
  have h1 : bigList.take 1 = [mkSummary 0] := rfl
  have hmem : mkSummary 0 ∈ bigList.take (bigList.length - MAX_HISTORY) := by
    rw [h2, h1]
    exact List.mem_singleton.mpr rfl
  exact h.2 hnd (mkSummary 0) hmem
